import Mathlib

/-!
Shallow embedding of `src/qrcode.tsx` (the single React component of the
repository): its data model (`QRConfig`, `AppStatus`), the input handler
`handleInputChange`, the submit handler `generateQRCode` (modelled as the
list of observable events it emits: status updates and outbound requests),
the `useEffect` cleanup that revokes object URLs, and the
disabled-while-loading submit button, together with theorems settling the
specification claims about them.
-/

/-- The value of a numeric form field: `number | ""` in the source.
The empty string sentinel is a distinct constructor, not the number 0. -/
inductive NumberOrEmpty where
  | num (n : Int)
  | empty
deriving DecidableEq, Repr

/-- `QRConfig` from the source: the form configuration. -/
structure QRConfig where
  text : String
  size : NumberOrEmpty
  color : String
  background : String
  margin : NumberOrEmpty
deriving DecidableEq, Repr

/-- `AppStatus` from the source: the request/response status. -/
structure AppStatus where
  loading : Bool
  qrUrl : Option String
  error : Option String
deriving DecidableEq, Repr

/-- The five form fields of the component. -/
inductive FormField where
  | text
  | size
  | color
  | background
  | margin
deriving DecidableEq, Repr

/-- The `type` attribute of the form element each field is bound to in the
JSX: `size` and `margin` are `<input type="number">`, `text` is a
`<textarea>`, `color` and `background` are `<input type="color">`. -/
def fieldType : FormField → String
  | .text => "textarea"
  | .size => "number"
  | .color => "color"
  | .background => "color"
  | .margin => "number"

/-- Model of JavaScript `String.prototype.trim()`: drop whitespace from
both ends. Structural (via `List.dropWhile`) so that it evaluates. -/
def jsTrim (s : String) : String :=
  String.mk (((s.data.dropWhile Char.isWhitespace).reverse.dropWhile
    Char.isWhitespace).reverse)

/-- Longest prefix of decimal digits, as used by `parseInt(value, 10)`. -/
def leadingDigits : List Char → List Char
  | [] => []
  | c :: cs => if c.isDigit then c :: leadingDigits cs else []

/-- Numeric value of a list of decimal digits. -/
def digitsToNat (ds : List Char) : Nat :=
  ds.foldl (fun acc c => acc * 10 + (c.toNat - 48)) 0

/-- Model of JavaScript `parseInt(s, 10)`: skip leading whitespace, read an
optional sign, then the longest prefix of decimal digits; `none` (NaN) when
no digit is read, otherwise the signed value of the digits read. -/
def jsParseInt (s : String) : Option Int :=
  let cs := s.data.dropWhile Char.isWhitespace
  let signed : Int × List Char :=
    match cs with
    | '+' :: t => (1, t)
    | '-' :: t => (-1, t)
    | t => (1, t)
  let ds := leadingDigits signed.2
  if ds = [] then none else some (signed.1 * (digitsToNat ds : Int))

/-- Write a numeric field (`{ ...prev, [name]: v }` for a number-typed
input; only `size` and `margin` are number-typed). -/
def setNumField (cfg : QRConfig) (f : FormField) (v : NumberOrEmpty) : QRConfig :=
  match f with
  | .size => { cfg with size := v }
  | .margin => { cfg with margin := v }
  | _ => cfg

/-- Write a string field (`{ ...prev, [name]: value }` for a non-number
input; only `text`, `color` and `background` are non-number). -/
def setRawField (cfg : QRConfig) (f : FormField) (v : String) : QRConfig :=
  match f with
  | .text => { cfg with text := v }
  | .color => { cfg with color := v }
  | .background => { cfg with background := v }
  | _ => cfg

/-- `handleInputChange` from the source: for a number-typed field, an empty
value stores the empty sentinel, a value `parseInt` accepts stores the
parsed integer, and any other value is ignored; for every other field the
raw string is stored verbatim. -/
def handleInputChange (cfg : QRConfig) (f : FormField) (value : String) : QRConfig :=
  if fieldType f = "number" then
    if value = "" then setNumField cfg f .empty
    else
      match jsParseInt value with
      | some n => setNumField cfg f (.num n)
      | none => cfg
  else setRawField cfg f value

/-- A JSON value occurring in the request body. -/
inductive JsonValue where
  | str (s : String)
  | int (n : Int)
deriving DecidableEq, Repr

/-- How `JSON.stringify` serializes a `number | ""` field. -/
def numberToJson : NumberOrEmpty → JsonValue
  | .num n => .int n
  | .empty => .str ""

/-- The request body `JSON.stringify(config)`: the five keys of `QRConfig`
in declaration order. -/
def serializeConfig (cfg : QRConfig) : List (String × JsonValue) :=
  [("text", .str cfg.text), ("size", numberToJson cfg.size),
   ("color", .str cfg.color), ("background", .str cfg.background),
   ("margin", numberToJson cfg.margin)]

/-- An outbound HTTP request as issued by `fetch` in the source. -/
structure Request where
  method : String
  url : String
  contentType : String
  body : List (String × JsonValue)
deriving DecidableEq, Repr

/-- The one request `generateQRCode` builds from the configuration. -/
def mkRequest (cfg : QRConfig) : Request :=
  { method := "POST", url := "/api/qrcode",
    contentType := "application/json", body := serializeConfig cfg }

/-- How the awaited network interaction ends: a 2xx response whose blob is
read (`ok`), a non-2xx response (`httpError`, which makes the source throw
an `Error`), a rejection with an `Error` carrying a message
(`thrownError`), or a rejection with a non-`Error` value
(`thrownNonError`). -/
inductive FetchOutcome where
  | ok
  | httpError
  | thrownError (msg : String)
  | thrownNonError
deriving DecidableEq, Repr

/-- The validation error message from the source. -/
def validationMsg : String := "Please enter some content first."

/-- The message of the `Error` thrown on a non-ok response. -/
def serverErrorMsg : String := "Server error. Is the Python backend running?"

/-- The fallback message stored when the caught value is not an `Error`. -/
def fallbackMsg : String := "Something went wrong."

/-- The status set just before the request is issued. -/
def pendingStatus : AppStatus := { loading := true, qrUrl := none, error := none }

/-- The status set when the awaited interaction ends; `newUrl` is the
object URL `URL.createObjectURL` returns for the response blob. -/
def outcomeStatus (newUrl : String) : FetchOutcome → AppStatus
  | .ok => { loading := false, qrUrl := some newUrl, error := none }
  | .httpError => { loading := false, qrUrl := none, error := some serverErrorMsg }
  | .thrownError m => { loading := false, qrUrl := none, error := some m }
  | .thrownNonError => { loading := false, qrUrl := none, error := some fallbackMsg }

/-- An observable event of a `generateQRCode` run: a `setStatus` call or an
outbound request. -/
inductive Ev where
  | setSt (s : AppStatus)
  | sendReq (r : Request)
deriving DecidableEq, Repr

/-- `generateQRCode` from the source, as the ordered list of events it
emits given the configuration, the previous status, the object URL the
browser would allocate for a successful blob, and the network outcome. -/
def generateQRCode (cfg : QRConfig) (prev : AppStatus) (newUrl : String)
    (outcome : FetchOutcome) : List Ev :=
  if jsTrim cfg.text = "" then
    [.setSt { prev with error := some validationMsg }]
  else
    [.setSt pendingStatus, .sendReq (mkRequest cfg),
     .setSt (outcomeStatus newUrl outcome)]

/-- The requests issued during a run. -/
def requestsOf (tr : List Ev) : List Request :=
  tr.filterMap fun e => match e with | .sendReq r => some r | _ => none

/-- The statuses set during a run, in order. -/
def statusesOf (tr : List Ev) : List AppStatus :=
  tr.filterMap fun e => match e with | .setSt s => some s | _ => none

/-- The status the component holds after a run: the last status set, or the
previous one when the run set none. -/
def finalStatus (prev : AppStatus) (tr : List Ev) : AppStatus :=
  (statusesOf tr).getLastD prev

/-- The initial configuration from `useState`. -/
def initConfig : QRConfig :=
  { text := "https://example.com", size := .num 300, color := "#000000",
    background := "#ffffff", margin := .num 4 }

/-- The initial status from `useState`. -/
def initStatus : AppStatus := { loading := false, qrUrl := none, error := none }

/-- The value of any field, for frame statements. -/
inductive FieldVal where
  | str (s : String)
  | numv (v : NumberOrEmpty)
deriving DecidableEq, Repr

/-- Read one configuration field. -/
def getField (cfg : QRConfig) : FormField → FieldVal
  | .text => .str cfg.text
  | .size => .numv cfg.size
  | .color => .str cfg.color
  | .background => .str cfg.background
  | .margin => .numv cfg.margin

/-- The full component state: configuration and status. -/
structure CompState where
  config : QRConfig
  status : AppStatus
deriving DecidableEq, Repr

/-- The component state right after mount. -/
def initState : CompState := { config := initConfig, status := initStatus }

/-- The input handler at component level: it only calls `setConfig`. -/
def handleInput (s : CompState) (f : FormField) (v : String) : CompState :=
  { s with config := handleInputChange s.config f v }

/-- An event of the component lifecycle: a form-field input, or a submit
together with the outcome of its (possible) network interaction and the
object URL allocated for a successful blob. -/
inductive UserEvent where
  | input (f : FormField) (v : String)
  | submit (newUrl : String) (outcome : FetchOutcome)
deriving DecidableEq, Repr

/-- State transition of the component for one lifecycle event. -/
def stepEv (s : CompState) : UserEvent → CompState
  | .input f v => handleInput s f v
  | .submit u o =>
    { s with status := finalStatus s.status (generateQRCode s.config s.status u o) }

/-- The statuses a lifecycle event makes the component render. -/
def emittedStatuses (s : CompState) : UserEvent → List AppStatus
  | .input _ _ => []
  | .submit u o => statusesOf (generateQRCode s.config s.status u o)

/-- All statuses rendered while processing a list of lifecycle events. -/
def runStatuses (s : CompState) : List UserEvent → List AppStatus
  | [] => []
  | e :: rest => emittedStatuses s e ++ runStatuses (stepEv s e) rest

/-- The full status history of a mounted-then-unmounted component:
the initial status followed by every status set during the events. -/
def statusHistory (evs : List UserEvent) : List AppStatus :=
  initStatus :: runStatuses initState evs

/-- The object URLs created during the events: one `URL.createObjectURL`
call per submit that passes validation and gets a 2xx response. -/
def createdHandles (s : CompState) : List UserEvent → List String
  | [] => []
  | .input f v :: rest => createdHandles (stepEv s (.input f v)) rest
  | .submit u o :: rest =>
    (if jsTrim s.config.text ≠ "" ∧ o = .ok then [u] else []) ++
      createdHandles (stepEv s (.submit u o)) rest

/-- Collapse consecutive equal values: the `useEffect` with dependency
`[status.qrUrl]` re-runs only when the dependency changed. -/
def dedupConsec : List (Option String) → List (Option String)
  | [] => []
  | [a] => [a]
  | a :: b :: l =>
    if a = b then dedupConsec (b :: l) else a :: dedupConsec (b :: l)

/-- The URLs passed to `URL.revokeObjectURL` over the whole lifecycle: the
effect runs once per distinct consecutive value of `status.qrUrl`, and each
run's cleanup (executed when the dependency next changes, or at unmount)
revokes the captured `qrUrl` when it is non-null. -/
def revokedUrls (evs : List UserEvent) : List String :=
  (dedupConsec ((statusHistory evs).map (fun st => st.qrUrl))).filterMap id

/-- The submit control of the JSX: `disabled={status.loading}`. -/
def submitDisabled (st : AppStatus) : Bool := st.loading

/-- State of the in-flight machine: the rendered status plus the number of
outstanding network requests. -/
structure MachineState where
  status : AppStatus
  inFlight : Nat
deriving DecidableEq, Repr

/-- The machine right after mount: idle, nothing outstanding. -/
def initMachine : MachineState := { status := initStatus, inFlight := 0 }

/-- A fine-grained event: a click on the submit control (form submission),
or the arrival of the outcome of an outstanding request. -/
inductive MEvent where
  | submitClick (cfg : QRConfig)
  | response (newUrl : String) (outcome : FetchOutcome)
deriving Repr

/-- One fine-grained step. A click while the control is disabled does
nothing (the browser fires no submit event for a disabled default button);
an enabled click runs the synchronous part of `generateQRCode`: either the
validation error, or setting `pendingStatus` and issuing the request. A
response ends one outstanding request with `outcomeStatus`. -/
def mstep (s : MachineState) : MEvent → MachineState
  | .submitClick cfg =>
    if submitDisabled s.status then s
    else if jsTrim cfg.text = "" then
      { s with status := { s.status with error := some validationMsg } }
    else { status := pendingStatus, inFlight := s.inFlight + 1 }
  | .response u o =>
    if s.inFlight = 0 then s
    else { status := outcomeStatus u o, inFlight := s.inFlight - 1 }

/-- Run the in-flight machine over a list of events. -/
def runMachine (s : MachineState) : List MEvent → MachineState
  | [] => s
  | e :: rest => runMachine (mstep s e) rest

/-- The error message stored for each failing outcome: the thrown `Error`'s
message, or the generic fallback for a non-`Error` value. (The `ok` case
never stores an error; the value there is irrelevant.) -/
def errorMessageOf : FetchOutcome → String
  | .ok => fallbackMsg
  | .httpError => serverErrorMsg
  | .thrownError m => m
  | .thrownNonError => fallbackMsg

theorem handleInput_status (s : CompState) (f : FormField) (v : String) :
    (handleInput s f v).status = s.status := rfl

theorem stepEv_input_status (s : CompState) (f : FormField) (v : String) :
    (stepEv s (.input f v)).status = s.status := rfl

theorem dedupConsec_cons_self (a : Option String) (l : List (Option String)) :
    dedupConsec (a :: a :: l) = dedupConsec (a :: l) := by
  simp [dedupConsec]

theorem filterMap_dedupConsec_none (l : List (Option String)) :
    (dedupConsec (none :: l)).filterMap id = (dedupConsec l).filterMap id := by
  cases l with
  | nil => rfl
  | cons a l' =>
    by_cases h : (none : Option String) = a
    · rw [← h, dedupConsec_cons_self]
    · simp [dedupConsec, h]

theorem filterMap_dedupConsec_cons_none (q : Option String) (l : List (Option String)) :
    (dedupConsec (q :: none :: l)).filterMap id =
      q.toList ++ (dedupConsec l).filterMap id := by
  cases q with
  | none => rw [dedupConsec_cons_self, filterMap_dedupConsec_none]; rfl
  | some v =>
    have h : (some v : Option String) ≠ none := by simp
    simp only [dedupConsec, if_neg h, List.filterMap_cons]
    rw [show (dedupConsec (none :: l)).filterMap id = (dedupConsec l).filterMap id from
      filterMap_dedupConsec_none l]
    rfl

theorem revoked_eq_created_aux (evs : List UserEvent) : ∀ s : CompState,
    (dedupConsec ((s.status :: runStatuses s evs).map (fun st => st.qrUrl))).filterMap id
      = s.status.qrUrl.toList ++ createdHandles s evs := by
  induction evs with
  | nil =>
    intro s
    cases h : s.status.qrUrl <;>
      simp [runStatuses, createdHandles, dedupConsec, h]
  | cons e rest ih =>
    intro s
    cases e with
    | input f v =>
      have h := ih (stepEv s (.input f v))
      rw [stepEv_input_status] at h
      simpa [runStatuses, emittedStatuses, createdHandles] using h
    | submit u o =>
      by_cases hv : jsTrim s.config.text = ""
      · have hs' : (stepEv s (.submit u o)).status =
            { s.status with error := some validationMsg } := by
          simp [stepEv, generateQRCode, hv, finalStatus, statusesOf]
        have h := ih (stepEv s (.submit u o))
        rw [hs'] at h
        simp only [runStatuses, emittedStatuses, generateQRCode, if_pos hv,
          statusesOf, List.filterMap_cons, List.filterMap_nil, createdHandles,
          List.singleton_append, List.map_cons] at h ⊢
        rw [show ({ s.status with error := some validationMsg } : AppStatus).qrUrl
              = s.status.qrUrl from rfl] at h ⊢
        rw [dedupConsec_cons_self, h, if_neg (by simp [hv])]
        rfl
      · have hs' : (stepEv s (.submit u o)).status = outcomeStatus u o := by
          simp [stepEv, generateQRCode, hv, finalStatus, statusesOf]
        have h := ih (stepEv s (.submit u o))
        rw [hs'] at h
        simp only [runStatuses, emittedStatuses, generateQRCode, if_neg hv,
          statusesOf, List.filterMap_cons, List.filterMap_nil, createdHandles,
          List.map_cons, List.cons_append, List.nil_append] at h ⊢
        rw [show pendingStatus.qrUrl = none from rfl,
          filterMap_dedupConsec_cons_none, h]
        cases o with
        | ok =>
          simp [outcomeStatus, hv]
        | httpError =>
          simp [outcomeStatus, hv]
        | thrownError m =>
          simp [outcomeStatus, hv]
        | thrownNonError =>
          simp [outcomeStatus, hv]

/-- C3: over a whole component lifecycle (mount, events, unmount), the
`useEffect` cleanup revokes exactly the object URLs that were created:
assuming `URL.createObjectURL` returns pairwise-distinct URLs, the list of
revoked URLs equals the list of created handles, contains no duplicate
(never released twice), and a URL is revoked iff it was created (never
leaked, nothing foreign released). -/
theorem c3_handles_released_exactly_once (evs : List UserEvent)
    (hfresh : (createdHandles initState evs).Nodup) :
    revokedUrls evs = createdHandles initState evs ∧
    (revokedUrls evs).Nodup ∧
    ∀ u : String, u ∈ revokedUrls evs ↔ u ∈ createdHandles initState evs := by
  have h : revokedUrls evs = createdHandles initState evs := by
    have := revoked_eq_created_aux evs initState
    simpa [revokedUrls, statusHistory, initState, initStatus] using this
  exact ⟨h, h ▸ hfresh, fun u => h ▸ Iff.rfl⟩

theorem c3_witness :
    revokedUrls [UserEvent.submit "u1" .ok, UserEvent.submit "u2" .ok] =
      createdHandles initState [UserEvent.submit "u1" .ok, UserEvent.submit "u2" .ok] ∧
    (revokedUrls [UserEvent.submit "u1" .ok, UserEvent.submit "u2" .ok]).Nodup ∧
    ∀ u : String,
      u ∈ revokedUrls [UserEvent.submit "u1" .ok, UserEvent.submit "u2" .ok] ↔
        u ∈ createdHandles initState [UserEvent.submit "u1" .ok, UserEvent.submit "u2" .ok] :=
  c3_handles_released_exactly_once
    [UserEvent.submit "u1" .ok, UserEvent.submit "u2" .ok] (by decide)

theorem outcomeStatus_loading (u : String) (o : FetchOutcome) :
    (outcomeStatus u o).loading = false := by
  cases o <;> rfl

theorem mstep_inFlight_inv (s : MachineState) (e : MEvent)
    (h : s.inFlight = if s.status.loading then 1 else 0) :
    (mstep s e).inFlight = if (mstep s e).status.loading then 1 else 0 := by
  cases e with
  | submitClick cfg =>
    cases hL : s.status.loading with
    | true =>
      have hid : mstep s (.submitClick cfg) = s := by
        simp [mstep, submitDisabled, hL]
      rw [hid]
      exact h
    | false =>
      rw [hL] at h
      simp only [Bool.false_eq_true, if_false] at h
      by_cases hv : jsTrim cfg.text = ""
      · have hid : mstep s (.submitClick cfg) =
            { s with status := { s.status with error := some validationMsg } } := by
          simp [mstep, submitDisabled, hL, hv]
        rw [hid]
        simp [hL, h]
      · have hid : mstep s (.submitClick cfg) =
            { status := pendingStatus, inFlight := s.inFlight + 1 } := by
          simp [mstep, submitDisabled, hL, hv]
        rw [hid]
        simp [pendingStatus, h]
  | response u o =>
    cases hn : s.inFlight with
    | zero =>
      have hid : mstep s (.response u o) = s := by
        simp [mstep, hn]
      rw [hid]
      exact h
    | succ n =>
      have hL : s.status.loading = true := by
        by_contra hc
        rw [Bool.not_eq_true] at hc
        rw [hc] at h
        simp only [Bool.false_eq_true, if_false] at h
        omega
      rw [hL] at h
      simp only [if_pos rfl] at h
      have hid : mstep s (.response u o) =
          { status := outcomeStatus u o, inFlight := s.inFlight - 1 } := by
        simp [mstep, hn]
      rw [hid]
      simp [outcomeStatus_loading, h]

theorem runMachine_inFlight_inv (evs : List MEvent) : ∀ s : MachineState,
    s.inFlight = (if s.status.loading then 1 else 0) →
    (runMachine s evs).inFlight =
      if (runMachine s evs).status.loading then 1 else 0 := by
  induction evs with
  | nil => intro s h; exact h
  | cons e rest ih => intro s h; exact ih (mstep s e) (mstep_inFlight_inv s e h)

/-- C5: the submit control is disabled exactly while `status.loading`
holds, and consequently, along every sequence of clicks and responses from
the mounted component, at most one request is outstanding at any time. -/
theorem c5_at_most_one_in_flight :
    (∀ st : AppStatus, submitDisabled st = st.loading) ∧
    ∀ evs : List MEvent, (runMachine initMachine evs).inFlight ≤ 1 := by
  refine ⟨fun st => rfl, fun evs => ?_⟩
  have h := runMachine_inFlight_inv evs initMachine rfl
  rw [h]
  split <;> omega

/-- C1: when the text field is empty or whitespace-only after trimming,
the submit run issues no request and sets the error field to the exact
string "Please enter some content first.". -/
theorem c1_empty_text_no_request (cfg : QRConfig) (prev : AppStatus)
    (u : String) (o : FetchOutcome) (h : jsTrim cfg.text = "") :
    requestsOf (generateQRCode cfg prev u o) = [] ∧
    (finalStatus prev (generateQRCode cfg prev u o)).error =
      some "Please enter some content first." := by
  constructor
  · simp [generateQRCode, h, requestsOf]
  · simp [generateQRCode, h, finalStatus, statusesOf, validationMsg]

theorem c1_witness :
    requestsOf (generateQRCode { initConfig with text := "   " } initStatus "url" .ok) = [] ∧
    (finalStatus initStatus
        (generateQRCode { initConfig with text := "   " } initStatus "url" .ok)).error =
      some "Please enter some content first." :=
  c1_empty_text_no_request { initConfig with text := "   " } initStatus "url" .ok (by decide)

/-- C2: for a submit attempt that reaches the network (validation passed)
and completes, exactly one of the result handle and the error is set:
loading is cleared, the handle is set iff the error is clear, a 2xx outcome
yields the handle with no error, and every other outcome yields an error
with no handle. -/
theorem c2_exclusive_outcome (cfg : QRConfig) (prev : AppStatus) (u : String)
    (o : FetchOutcome) (h : jsTrim cfg.text ≠ "") :
    (finalStatus prev (generateQRCode cfg prev u o)).loading = false ∧
    (finalStatus prev (generateQRCode cfg prev u o)).qrUrl.isSome =
      (finalStatus prev (generateQRCode cfg prev u o)).error.isNone ∧
    (o = .ok →
      finalStatus prev (generateQRCode cfg prev u o) =
        { loading := false, qrUrl := some u, error := none }) ∧
    (o ≠ .ok →
      (finalStatus prev (generateQRCode cfg prev u o)).qrUrl = none ∧
      (finalStatus prev (generateQRCode cfg prev u o)).error.isSome = true) := by
  have hfin : finalStatus prev (generateQRCode cfg prev u o) = outcomeStatus u o := by
    simp [generateQRCode, h, finalStatus, statusesOf]
  rw [hfin]
  refine ⟨outcomeStatus_loading u o, ?_, ?_, ?_⟩ <;> cases o <;> simp [outcomeStatus]

theorem c2_witness :
    (finalStatus initStatus (generateQRCode initConfig initStatus "url" .httpError)).loading
        = false ∧
    (finalStatus initStatus (generateQRCode initConfig initStatus "url" .httpError)).qrUrl
        = none ∧
    (finalStatus initStatus
        (generateQRCode initConfig initStatus "url" .httpError)).error.isSome = true := by
  have h := c2_exclusive_outcome initConfig initStatus "url" .httpError (by decide)
  exact ⟨h.1, (h.2.2.2 (by decide)).1, (h.2.2.2 (by decide)).2⟩

/-- C10: a submit attempt that fails validation overwrites only the error
field: the resulting status keeps the prior loading flag and the prior
result handle (so a handle from an earlier success survives). -/
theorem c10_validation_keeps_frame (cfg : QRConfig) (prev : AppStatus)
    (u : String) (o : FetchOutcome) (h : jsTrim cfg.text = "") :
    finalStatus prev (generateQRCode cfg prev u o) =
      { loading := prev.loading, qrUrl := prev.qrUrl, error := some validationMsg } := by
  simp [generateQRCode, h, finalStatus, statusesOf]

theorem c10_witness :
    finalStatus { loading := false, qrUrl := some "old", error := none }
        (generateQRCode { initConfig with text := "" }
          { loading := false, qrUrl := some "old", error := none } "u" .httpError) =
      { loading := false, qrUrl := some "old", error := some validationMsg } :=
  c10_validation_keeps_frame { initConfig with text := "" }
    { loading := false, qrUrl := some "old", error := none } "u" .httpError (by decide)

/-- C6: a submit attempt that passes validation first sets a status with
the prior error and prior result handle cleared and loading set, and only
then issues exactly one request whose body is the current configuration
serialized as structured data. -/
theorem c6_valid_submit_clears_then_requests (cfg : QRConfig) (prev : AppStatus)
    (u : String) (o : FetchOutcome) (h : jsTrim cfg.text ≠ "") :
    generateQRCode cfg prev u o =
      [.setSt pendingStatus, .sendReq (mkRequest cfg),
       .setSt (outcomeStatus u o)] ∧
    pendingStatus = { loading := true, qrUrl := none, error := none } ∧
    requestsOf (generateQRCode cfg prev u o) = [mkRequest cfg] ∧
    (mkRequest cfg).body = serializeConfig cfg := by
  refine ⟨?_, rfl, ?_, rfl⟩
  · simp [generateQRCode, h]
  · simp [generateQRCode, h, requestsOf]

theorem c6_witness :
    generateQRCode initConfig initStatus "url" .ok =
      [.setSt pendingStatus, .sendReq (mkRequest initConfig),
       .setSt (outcomeStatus "url" .ok)] ∧
    pendingStatus = { loading := true, qrUrl := none, error := none } ∧
    requestsOf (generateQRCode initConfig initStatus "url" .ok) = [mkRequest initConfig] ∧
    (mkRequest initConfig).body = serializeConfig initConfig :=
  c6_valid_submit_clears_then_requests initConfig initStatus "url" .ok (by decide)

/-- C7: for a submit that reaches the network, every failing outcome (a
non-2xx response, which makes the source throw, or a rejected promise)
ends in the same failure shape, whose stored message is the thrown
`Error`'s message (the fixed server-error text for a non-2xx response) or
the generic fallback when the thrown value is not an `Error`; the non-2xx
status is indistinguishable from a transport error with the same message. -/
theorem c7_failure_collapsed (cfg : QRConfig) (prev : AppStatus) (u : String)
    (o : FetchOutcome) (h : jsTrim cfg.text ≠ "") (ho : o ≠ .ok) :
    finalStatus prev (generateQRCode cfg prev u o) =
      { loading := false, qrUrl := none, error := some (errorMessageOf o) } ∧
    errorMessageOf .httpError = serverErrorMsg ∧
    (∀ m : String, errorMessageOf (.thrownError m) = m) ∧
    errorMessageOf .thrownNonError = fallbackMsg ∧
    outcomeStatus u .httpError = outcomeStatus u (.thrownError serverErrorMsg) := by
  refine ⟨?_, rfl, fun m => rfl, rfl, rfl⟩
  have hfin : finalStatus prev (generateQRCode cfg prev u o) = outcomeStatus u o := by
    simp [generateQRCode, h, finalStatus, statusesOf]
  rw [hfin]
  cases o with
  | ok => exact absurd rfl ho
  | httpError => rfl
  | thrownError m => rfl
  | thrownNonError => rfl

theorem c7_witness :
    finalStatus initStatus (generateQRCode initConfig initStatus "url" .thrownNonError) =
      { loading := false, qrUrl := none,
        error := some (errorMessageOf .thrownNonError) } ∧
    errorMessageOf .httpError = serverErrorMsg ∧
    (∀ m : String, errorMessageOf (.thrownError m) = m) ∧
    errorMessageOf .thrownNonError = fallbackMsg ∧
    outcomeStatus "url" .httpError = outcomeStatus "url" (.thrownError serverErrorMsg) :=
  c7_failure_collapsed initConfig initStatus "url" .thrownNonError (by decide) (by decide)

/-- C8: every outbound request is a POST to /api/qrcode with content type
application/json, and its body has exactly the keys text, size, color,
background and margin, holding the current configuration; each numeric
field serializes as an integer or as the empty-string sentinel. -/
theorem c8_request_contract (cfg : QRConfig) (prev : AppStatus) (u : String)
    (o : FetchOutcome) (h : jsTrim cfg.text ≠ "") :
    requestsOf (generateQRCode cfg prev u o) =
      [{ method := "POST", url := "/api/qrcode",
         contentType := "application/json",
         body := [("text", .str cfg.text), ("size", numberToJson cfg.size),
                  ("color", .str cfg.color), ("background", .str cfg.background),
                  ("margin", numberToJson cfg.margin)] }] ∧
    (∀ x : NumberOrEmpty,
      (∃ n : Int, numberToJson x = .int n) ∨ numberToJson x = .str "") := by
  refine ⟨?_, fun x => ?_⟩
  · simp [generateQRCode, h, requestsOf, mkRequest, serializeConfig]
  · cases x with
    | num n => exact Or.inl ⟨n, rfl⟩
    | empty => exact Or.inr rfl

theorem c8_witness :
    requestsOf (generateQRCode initConfig initStatus "url" .ok) =
      [{ method := "POST", url := "/api/qrcode",
         contentType := "application/json",
         body := [("text", .str initConfig.text), ("size", numberToJson initConfig.size),
                  ("color", .str initConfig.color),
                  ("background", .str initConfig.background),
                  ("margin", numberToJson initConfig.margin)] }] ∧
    (∀ x : NumberOrEmpty,
      (∃ n : Int, numberToJson x = .int n) ∨ numberToJson x = .str "") :=
  c8_request_contract initConfig initStatus "url" .ok (by decide)

/-- C4: on a number-typed field (size, margin), an empty input stores the
empty sentinel, which differs from the number 0; an input `parseInt`
parses stores that integer; and an input `parseInt` rejects (NaN) leaves
the configuration unchanged. -/
theorem c4_numeric_input (cfg : QRConfig) (f : FormField) (v : String)
    (hf : fieldType f = "number") :
    (v = "" → getField (handleInputChange cfg f v) f = .numv .empty) ∧
    NumberOrEmpty.empty ≠ .num 0 ∧
    (∀ n : Int, jsParseInt v = some n →
      getField (handleInputChange cfg f v) f = .numv (.num n)) ∧
    (v ≠ "" → jsParseInt v = none → handleInputChange cfg f v = cfg) := by
  have hempty : jsParseInt "" = none := rfl
  cases f with
  | text => exact absurd hf (by decide)
  | color => exact absurd hf (by decide)
  | background => exact absurd hf (by decide)
  | size =>
    refine ⟨?_, by decide, ?_, ?_⟩
    · intro hv
      subst hv
      simp [handleInputChange, fieldType, setNumField, getField]
    · intro n hn
      have hne : v ≠ "" := by
        intro he
        rw [he, hempty] at hn
        cases hn
      simp [handleInputChange, fieldType, hne, hn, setNumField, getField]
    · intro hv hn
      simp [handleInputChange, fieldType, hv, hn]
  | margin =>
    refine ⟨?_, by decide, ?_, ?_⟩
    · intro hv
      subst hv
      simp [handleInputChange, fieldType, setNumField, getField]
    · intro n hn
      have hne : v ≠ "" := by
        intro he
        rw [he, hempty] at hn
        cases hn
      simp [handleInputChange, fieldType, hne, hn, setNumField, getField]
    · intro hv hn
      simp [handleInputChange, fieldType, hv, hn]

theorem c4_witness :
    getField (handleInputChange initConfig .size "12") .size = .numv (.num 12) :=
  (c4_numeric_input initConfig .size "12" rfl).2.2.1 12 (by decide)

/-- C9: on a non-number field (text, color, background), the raw string is
stored verbatim in that configuration field, every other configuration
field is unchanged, and the request status is untouched. -/
theorem c9_raw_field_frame (s : CompState) (f : FormField) (v : String)
    (hf : f = .text ∨ f = .color ∨ f = .background) :
    (handleInput s f v).status = s.status ∧
    getField (handleInput s f v).config f = .str v ∧
    ∀ g : FormField, g ≠ f →
      getField (handleInput s f v).config g = getField s.config g := by
  refine ⟨rfl, ?_, ?_⟩
  · rcases hf with h | h | h <;> subst h <;>
      simp [handleInput, handleInputChange, fieldType, setRawField, getField]
  · intro g hg
    rcases hf with h | h | h <;> subst h <;> cases g <;>
      simp_all [handleInput, handleInputChange, fieldType, setRawField, getField]

theorem c9_witness :
    (handleInput initState .color "#123456").status = initState.status ∧
    getField (handleInput initState .color "#123456").config .color = .str "#123456" ∧
    getField (handleInput initState .color "#123456").config .text =
      getField initState.config .text :=
  ⟨(c9_raw_field_frame initState .color "#123456" (Or.inr (Or.inl rfl))).1,
   (c9_raw_field_frame initState .color "#123456" (Or.inr (Or.inl rfl))).2.1,
   (c9_raw_field_frame initState .color "#123456" (Or.inr (Or.inl rfl))).2.2 .text
     (by decide)⟩
